import Mathlib

/-!
Verification of `seastar::memory::alloc_failure_injector`
(src/util/alloc_failure_injector.hh).

The injector holds five fields: `_alloc_count : uint64_t`,
`_fail_at : uint64_t` (default `UINT64_MAX`), the failure callback
`_on_alloc_failure : std::function<void()>` (default throws
`std::bad_alloc`), `_failed : bool`, and `_suppressed : uint64_t`.
We embed the `uint64_t` fields as `Nat` with arithmetic reduced
mod `2 ^ 64`, exactly where the C++ unsigned arithmetic wraps.

The stored callback is opaque code; the injector's behaviour depends
only on whether invoking it raises an exception (the default
`std::bad_alloc` throw) or returns normally (a substituted recording
callback), so it is embedded as the two-valued `CbSpec`.
`on_alloc_point` returns, besides the new state, whether an exception
propagated out of it (`raised`) and how many times the callback was
invoked during the call (`cbInvocations`).
-/

set_option maxRecDepth 4000

/-- `2 ^ 64`, the modulus of `uint64_t` arithmetic. -/
def U64LIM : Nat := 2 ^ 64

/-- `std::numeric_limits<uint64_t>::max()` (`2 ^ 64 - 1`), used by the
source as the "never fails" sentinel for `_fail_at`. -/
def U64MAX : Nat := 18446744073709551615

/-- Behaviour of the stored `_on_alloc_failure` callback when invoked:
the default callback throws `std::bad_alloc` (`raises`); a substituted
callback may instead return normally (`returns`). -/
inductive CbSpec where
  | raises
  | returns
  deriving DecidableEq, Repr

/-- State of `alloc_failure_injector`: `_alloc_count`, `_fail_at`,
`_failed`, `_suppressed` (all `uint64_t`, embedded as `Nat` taken
mod `2 ^ 64` by every mutation), and the stored callback. -/
structure Injector where
  alloc_count : Nat
  fail_at : Nat
  failed : Bool
  suppressed : Nat
  cb : CbSpec
  deriving DecidableEq, Repr

/-- `cancel()`: `_fail_at = std::numeric_limits<uint64_t>::max();`. -/
def cancel (s : Injector) : Injector :=
  { s with fail_at := U64MAX }

/-- `fail_after(count)`: `_fail_at = _alloc_count + count; _failed = false;`
(`uint64_t` addition, so the sum wraps mod `2 ^ 64`). -/
def fail_after (count : Nat) (s : Injector) : Injector :=
  { s with fail_at := (s.alloc_count + count) % U64LIM, failed := false }

/-- `set_alloc_failure_callback(cb)`: `_on_alloc_failure = std::move(cb);`. -/
def set_alloc_failure_callback (c : CbSpec) (s : Injector) : Injector :=
  { s with cb := c }

/-- Outcome of one `on_alloc_point()` call: the state after the call,
whether an exception propagated out of the call, and the number of
callback invocations made during the call. -/
structure StepResult where
  st : Injector
  raised : Bool
  cbInvocations : Nat
  deriving DecidableEq, Repr

/-- `on_alloc_point()`:
`if (_suppressed) return;`
`if (_alloc_count >= _fail_at) { _failed = true; cancel(); _on_alloc_failure(); }`
`++_alloc_count;`
If the callback throws, the exception propagates and `++_alloc_count`
is not reached; if it returns normally, the increment still runs. -/
def on_alloc_point (s : Injector) : StepResult :=
  if s.suppressed ≠ 0 then
    ⟨s, false, 0⟩
  else if s.fail_at ≤ s.alloc_count then
    let s1 := cancel { s with failed := true }
    match s1.cb with
    | CbSpec.raises => ⟨s1, true, 1⟩
    | CbSpec.returns => ⟨{ s1 with alloc_count := (s1.alloc_count + 1) % U64LIM }, false, 1⟩
  else
    ⟨{ s with alloc_count := (s.alloc_count + 1) % U64LIM }, false, 0⟩

/-- `disable_failure_guard` constructor:
`++local_failure_injector()._suppressed;` (`uint64_t` increment). -/
def guardConstruct (s : Injector) : Injector :=
  { s with suppressed := (s.suppressed + 1) % U64LIM }

/-- `disable_failure_guard` destructor:
`--local_failure_injector()._suppressed;` (`uint64_t` decrement:
`0` wraps to `UINT64_MAX`, any other value drops by one). -/
def guardDestruct (s : Injector) : Injector :=
  { s with suppressed := if s.suppressed = 0 then U64MAX else s.suppressed - 1 }

/-- State after `n` successive `on_alloc_point()` calls. -/
def allocIter (s : Injector) : Nat → Injector
  | 0 => s
  | n + 1 => allocIter (on_alloc_point s).st n

/-- Total number of failure-callback invocations over `n` successive
`on_alloc_point()` calls. -/
def allocTriggers (s : Injector) : Nat → Nat
  | 0 => 0
  | n + 1 => (on_alloc_point s).cbInvocations + allocTriggers (on_alloc_point s).st n

/-- One operation of the injector's public interface (plus the
suppression guard's two scope events). -/
inductive Op where
  | allocPoint
  | cancelOp
  | failAfterOp (count : Nat)
  | setCbOp (c : CbSpec)
  | guardCtor
  | guardDtor
  deriving DecidableEq, Repr

/-- State transition of a single operation. -/
def applyOp (s : Injector) : Op → Injector
  | Op.allocPoint => (on_alloc_point s).st
  | Op.cancelOp => cancel s
  | Op.failAfterOp c => fail_after c s
  | Op.setCbOp c => set_alloc_failure_callback c s
  | Op.guardCtor => guardConstruct s
  | Op.guardDtor => guardDestruct s

/-- State after running a list of operations in order. -/
def run (s : Injector) : List Op → Injector
  | [] => s
  | op :: rest => run (applyOp s op) rest

/-- Callback invocations made by a single operation. -/
def opTriggers (s : Injector) : Op → Nat
  | Op.allocPoint => (on_alloc_point s).cbInvocations
  | _ => 0

/-- Total callback invocations over a list of operations. -/
def traceTriggers (s : Injector) : List Op → Nat
  | [] => 0
  | op :: rest => opTriggers s op + traceTriggers (applyOp s op) rest

/-- Whether an operation is a `fail_after` call. -/
def isFailAfterOp : Op → Bool
  | Op.failAfterOp _ => true
  | _ => false

/-- Number of `on_alloc_point` operations in a list. -/
def allocPointCount : List Op → Nat
  | [] => 0
  | Op.allocPoint :: rest => 1 + allocPointCount rest
  | _ :: rest => allocPointCount rest

/-! ### Concrete injector states used for witnesses and counterexamples -/

/-- A fresh injector, armed at the current count, default callback. -/
def wit1 : Injector := ⟨0, 0, false, 0, CbSpec.raises⟩

/-- Armed at the current count, default (raising) callback. -/
def wit2 : Injector := ⟨5, 5, false, 0, CbSpec.raises⟩

/-- Already past its threshold, default callback. -/
def wit3 : Injector := ⟨4, 2, false, 0, CbSpec.raises⟩

/-- Suppression depth 2. -/
def wit4 : Injector := ⟨3, 5, false, 2, CbSpec.raises⟩

/-- Active injection (no suppression). -/
def wit5 : Injector := ⟨7, 9, true, 0, CbSpec.returns⟩

/-- A fresh injector, default callback. -/
def wit6 : Injector := ⟨0, 5, true, 0, CbSpec.raises⟩

/-- Previously armed and already past its threshold. -/
def wit7 : Injector := ⟨10, 3, true, 0, CbSpec.raises⟩

/-- Armed in the past, substituted returning callback. -/
def wit8 : Injector := ⟨2, 0, false, 0, CbSpec.returns⟩

/-- Suppressed state with a stale schedule. -/
def wit9 : Injector := ⟨6, 0, true, 1, CbSpec.returns⟩

/-- Armed at the current count, substituted returning callback. -/
def wit10 : Injector := ⟨8, 8, false, 0, CbSpec.returns⟩

/-- `alloc_count` at `UINT64_MAX`: arming any positive count wraps. -/
def cex1 : Injector := ⟨18446744073709551615, 0, false, 0, CbSpec.raises⟩

/-- Armed at the current count with a normally-returning callback. -/
def cex2 : Injector := ⟨5, 5, false, 0, CbSpec.returns⟩

/-- `alloc_count` one below the `UINT64_MAX` sentinel. -/
def cex7 : Injector := ⟨18446744073709551614, 3, false, 0, CbSpec.raises⟩

/-- `alloc_count` one below the sentinel, returning callback. -/
def cex8 : Injector := ⟨18446744073709551614, 7, true, 0, CbSpec.returns⟩

/-- `alloc_count` at `UINT64_MAX`. -/
def cex9 : Injector := ⟨18446744073709551615, 5, true, 0, CbSpec.raises⟩

/-! ### Characterization of a single `on_alloc_point` call -/

/-- With `_suppressed` nonzero, `on_alloc_point` is the identity:
no field changes, nothing raised, no callback invocation. -/
theorem step_suppressed (s : Injector) (h : s.suppressed ≠ 0) :
    on_alloc_point s = ⟨s, false, 0⟩ := by
  simp [on_alloc_point, h]

/-- Below the threshold (and unsuppressed), `on_alloc_point` only
increments `_alloc_count`. -/
theorem step_no_trigger (s : Injector) (h0 : s.suppressed = 0)
    (h1 : s.alloc_count < s.fail_at) :
    on_alloc_point s =
      ⟨{ s with alloc_count := (s.alloc_count + 1) % U64LIM }, false, 0⟩ := by
  simp [on_alloc_point, h0, Nat.not_le.mpr h1]

/-- Triggering call with the default (raising) callback: `_failed` set,
schedule disarmed, exception propagates, `_alloc_count` unchanged. -/
theorem step_trigger_raises (s : Injector) (h0 : s.suppressed = 0)
    (h1 : s.fail_at ≤ s.alloc_count) (hc : s.cb = CbSpec.raises) :
    on_alloc_point s = ⟨{ s with failed := true, fail_at := U64MAX }, true, 1⟩ := by
  simp [on_alloc_point, cancel, h0, h1, hc]

/-- Triggering call with a callback that returns normally: `_failed`
set, schedule disarmed, no exception, and `++_alloc_count` still runs. -/
theorem step_trigger_returns (s : Injector) (h0 : s.suppressed = 0)
    (h1 : s.fail_at ≤ s.alloc_count) (hc : s.cb = CbSpec.returns) :
    on_alloc_point s =
      ⟨{ s with failed := true, fail_at := U64MAX, alloc_count := (s.alloc_count + 1) % U64LIM }, false, 1⟩ := by
  simp [on_alloc_point, cancel, h0, h1, hc]

/-- Facts common to every triggering call, whatever the callback does:
exactly one callback invocation, `_failed` set, `_fail_at` disarmed
before the callback runs, `_alloc_count` grows by at most one, and
`_suppressed` and the callback are untouched. -/
theorem step_trigger (s : Injector) (h0 : s.suppressed = 0)
    (h1 : s.fail_at ≤ s.alloc_count) :
    (on_alloc_point s).cbInvocations = 1 ∧
    (on_alloc_point s).st.failed = true ∧
    (on_alloc_point s).st.fail_at = U64MAX ∧
    (on_alloc_point s).st.alloc_count ≤ s.alloc_count + 1 ∧
    (on_alloc_point s).st.suppressed = s.suppressed ∧
    (on_alloc_point s).st.cb = s.cb := by
  cases hc : s.cb
  · rw [step_trigger_raises s h0 h1 hc]
    exact ⟨rfl, rfl, rfl, Nat.le_succ _, rfl, hc⟩
  · rw [step_trigger_returns s h0 h1 hc]
    exact ⟨rfl, rfl, rfl, Nat.mod_le _ _, rfl, hc⟩

/-- A non-triggering call (suppressed, or below threshold): no callback
invocation, and only `_alloc_count` can change, by at most one. -/
theorem step_not_triggered (s : Injector)
    (h : s.suppressed ≠ 0 ∨ s.alloc_count < s.fail_at) :
    (on_alloc_point s).cbInvocations = 0 ∧
    (on_alloc_point s).st.fail_at = s.fail_at ∧
    (on_alloc_point s).st.failed = s.failed ∧
    (on_alloc_point s).st.alloc_count ≤ s.alloc_count + 1 ∧
    (on_alloc_point s).st.suppressed = s.suppressed ∧
    (on_alloc_point s).st.cb = s.cb := by
  rcases h with h | h
  · rw [step_suppressed s h]
    exact ⟨rfl, rfl, rfl, Nat.le_succ _, rfl, rfl⟩
  · by_cases h0 : s.suppressed = 0
    · rw [step_no_trigger s h0 h]
      exact ⟨rfl, rfl, rfl, Nat.mod_le _ _, rfl, rfl⟩
    · rw [step_suppressed s h0]
      exact ⟨rfl, rfl, rfl, Nat.le_succ _, rfl, rfl⟩

/-! ### Arithmetic helpers and iteration lemmas -/

theorem U64LIM_eq : U64LIM = 18446744073709551616 := by norm_num [U64LIM]

theorem U64MAX_eq : U64MAX = 18446744073709551615 := by norm_num [U64MAX]

/-- The sentinel is the largest `uint64_t` value: `2 ^ 64 - 1`. -/
theorem U64MAX_eq_pow : U64MAX = 2 ^ 64 - 1 := by norm_num [U64MAX]

/-- Splitting a sequence of `on_alloc_point` calls. -/
theorem allocIter_add (m n : Nat) :
    ∀ s : Injector, allocIter s (m + n) = allocIter (allocIter s m) n := by
  induction m with
  | zero =>
    intro s
    rw [Nat.zero_add]
    rfl
  | succ m ih =>
    intro s
    have h : m + 1 + n = (m + n) + 1 := by omega
    rw [h]
    show allocIter (on_alloc_point s).st (m + n) = allocIter (allocIter s (m + 1)) n
    rw [ih (on_alloc_point s).st]
    rfl

/-- Splitting the trigger count of a sequence of `on_alloc_point` calls. -/
theorem allocTriggers_add (m n : Nat) :
    ∀ s : Injector,
      allocTriggers s (m + n) = allocTriggers s m + allocTriggers (allocIter s m) n := by
  induction m with
  | zero =>
    intro s
    rw [Nat.zero_add]
    show allocTriggers s n = 0 + allocTriggers s n
    rw [Nat.zero_add]
  | succ m ih =>
    intro s
    have h : m + 1 + n = (m + n) + 1 := by omega
    rw [h]
    show (on_alloc_point s).cbInvocations + allocTriggers (on_alloc_point s).st (m + n) =
      allocTriggers s (m + 1) + allocTriggers (allocIter s (m + 1)) n
    rw [ih (on_alloc_point s).st]
    show _ = (on_alloc_point s).cbInvocations + allocTriggers (on_alloc_point s).st m +
      allocTriggers (allocIter (on_alloc_point s).st m) n
    omega

/-- While armed and strictly below the threshold (with no `uint64_t`
wrap), `j` unsuppressed calls just count up: no callback invocation,
and only `_alloc_count` changes, by exactly `j`. -/
theorem armed_countdown (j : Nat) :
    ∀ s : Injector, s.suppressed = 0 → s.alloc_count + j ≤ s.fail_at →
      s.alloc_count + j < U64LIM →
      allocTriggers s j = 0 ∧
        allocIter s j = { s with alloc_count := s.alloc_count + j } := by
  induction j with
  | zero =>
    intro s _ _ _
    exact ⟨rfl, rfl⟩
  | succ j ih =>
    rintro ⟨a, fa, fl, sp, cb⟩ h0 hle hlt
    dsimp only at h0 hle hlt
    subst h0
    have hstep : a < fa := by omega
    have hmod : (a + 1) % U64LIM = a + 1 := Nat.mod_eq_of_lt (by omega)
    have h1 := step_no_trigger ⟨a, fa, fl, 0, cb⟩ rfl hstep
    rw [show ((⟨a, fa, fl, 0, cb⟩ : Injector).alloc_count + 1) % U64LIM = a + 1 from hmod] at h1
    have ihr := ih ⟨a + 1, fa, fl, 0, cb⟩ rfl (by dsimp only; omega) (by dsimp only; omega)
    constructor
    · show (on_alloc_point (⟨a, fa, fl, 0, cb⟩ : Injector)).cbInvocations +
        allocTriggers (on_alloc_point (⟨a, fa, fl, 0, cb⟩ : Injector)).st j = 0
      rw [h1]
      dsimp only
      rw [Nat.zero_add]
      exact ihr.1
    · show allocIter (on_alloc_point (⟨a, fa, fl, 0, cb⟩ : Injector)).st j =
        (⟨a + (j + 1), fa, fl, 0, cb⟩ : Injector)
      rw [h1]
      dsimp only
      rw [ihr.2]
      dsimp only
      rw [show a + 1 + j = a + (j + 1) from by omega]

/-- With the schedule disarmed (`_fail_at` at the `UINT64_MAX`
sentinel) and `_alloc_count` kept below the sentinel, a sequence of
calls never invokes the callback and never changes `_failed`,
`_fail_at`, `_suppressed` or the callback. -/
theorem disarmed_iter (n : Nat) :
    ∀ s : Injector, s.fail_at = U64MAX → s.alloc_count + n ≤ U64MAX →
      allocTriggers s n = 0 ∧
        (allocIter s n).failed = s.failed ∧
        (allocIter s n).fail_at = U64MAX ∧
        (allocIter s n).suppressed = s.suppressed ∧
        (allocIter s n).cb = s.cb := by
  induction n with
  | zero =>
    intro s hfa _
    exact ⟨rfl, rfl, hfa, rfl, rfl⟩
  | succ n ih =>
    rintro ⟨a, fa, fl, sp, cb⟩ hfa hle
    dsimp only at hfa hle
    subst hfa
    show (on_alloc_point (⟨a, U64MAX, fl, sp, cb⟩ : Injector)).cbInvocations +
        allocTriggers (on_alloc_point (⟨a, U64MAX, fl, sp, cb⟩ : Injector)).st n = 0 ∧
      (allocIter (on_alloc_point (⟨a, U64MAX, fl, sp, cb⟩ : Injector)).st n).failed = fl ∧
      (allocIter (on_alloc_point (⟨a, U64MAX, fl, sp, cb⟩ : Injector)).st n).fail_at = U64MAX ∧
      (allocIter (on_alloc_point (⟨a, U64MAX, fl, sp, cb⟩ : Injector)).st n).suppressed = sp ∧
      (allocIter (on_alloc_point (⟨a, U64MAX, fl, sp, cb⟩ : Injector)).st n).cb = cb
    by_cases hsp : sp = 0
    · subst hsp
      have hstep : a < U64MAX := by rw [U64MAX_eq] at hle ⊢; omega
      have hmod : (a + 1) % U64LIM = a + 1 :=
        Nat.mod_eq_of_lt (by rw [U64LIM_eq]; rw [U64MAX_eq] at hle; omega)
      have h1 := step_no_trigger ⟨a, U64MAX, fl, 0, cb⟩ rfl hstep
      rw [show ((⟨a, U64MAX, fl, 0, cb⟩ : Injector).alloc_count + 1) % U64LIM = a + 1 from hmod] at h1
      have ihr := ih ⟨a + 1, U64MAX, fl, 0, cb⟩ rfl (by dsimp only; omega)
      rw [h1]
      dsimp only
      rw [Nat.zero_add]
      exact ihr
    · have h1 := step_suppressed ⟨a, U64MAX, fl, sp, cb⟩ hsp
      have ihr := ih ⟨a, U64MAX, fl, sp, cb⟩ rfl (by dsimp only; omega)
      rw [h1]
      dsimp only
      rw [Nat.zero_add]
      exact ihr

/-! ### Trace lemmas over the operation list semantics -/

/-- Once `_failed` is set, a further `on_alloc_point` call never
clears it. -/
theorem step_failed_monotone (s : Injector) (h : s.failed = true) :
    (on_alloc_point s).st.failed = true := by
  by_cases h0 : s.suppressed = 0
  · by_cases h1 : s.fail_at ≤ s.alloc_count
    · exact (step_trigger s h0 h1).2.1
    · rw [step_no_trigger s h0 (Nat.not_le.mp h1)]
      exact h
  · rw [step_suppressed s h0]
    exact h

/-- Among the operations, only `fail_after` can clear `_failed`. -/
theorem run_failed_monotone (ops : List Op) :
    ∀ s : Injector, (∀ op ∈ ops, isFailAfterOp op = false) → s.failed = true →
      (run s ops).failed = true := by
  induction ops with
  | nil =>
    intro s _ h
    exact h
  | cons op rest ih =>
    intro s hno h
    have htail : ∀ o ∈ rest, isFailAfterOp o = false :=
      fun o ho => hno o (List.mem_cons_of_mem _ ho)
    cases op with
    | allocPoint => exact ih _ htail (step_failed_monotone s h)
    | cancelOp => exact ih _ htail h
    | failAfterOp c =>
      exact absurd (hno _ (List.mem_cons_self _ _)) (by simp [isFailAfterOp])
    | setCbOp c => exact ih _ htail h
    | guardCtor => exact ih _ htail h
    | guardDtor => exact ih _ htail h

/-- Starting with `_failed` clear, and with no intervening `fail_after`,
`_failed` ends up set exactly when some call along the way invoked the
failure callback. -/
theorem failed_iff_triggered (ops : List Op) :
    ∀ s : Injector, (∀ op ∈ ops, isFailAfterOp op = false) → s.failed = false →
      ((run s ops).failed = true ↔ 0 < traceTriggers s ops) := by
  induction ops with
  | nil =>
    intro s _ hf
    show s.failed = true ↔ 0 < 0
    simp [hf]
  | cons op rest ih =>
    intro s hno hf
    have htail : ∀ o ∈ rest, isFailAfterOp o = false :=
      fun o ho => hno o (List.mem_cons_of_mem _ ho)
    cases op with
    | allocPoint =>
      show (run (on_alloc_point s).st rest).failed = true ↔
        0 < (on_alloc_point s).cbInvocations + traceTriggers (on_alloc_point s).st rest
      by_cases h0 : s.suppressed = 0
      · by_cases h1 : s.fail_at ≤ s.alloc_count
        · have ht := step_trigger s h0 h1
          have hrun := run_failed_monotone rest (on_alloc_point s).st htail ht.2.1
          rw [hrun, ht.1]
          simp
        · rw [step_no_trigger s h0 (Nat.not_le.mp h1)]
          dsimp only
          rw [Nat.zero_add]
          exact ih _ htail hf
      · rw [step_suppressed s h0]
        dsimp only
        rw [Nat.zero_add]
        exact ih s htail hf
    | cancelOp =>
      show (run (cancel s) rest).failed = true ↔ 0 < 0 + traceTriggers (cancel s) rest
      rw [Nat.zero_add]
      exact ih (cancel s) htail hf
    | failAfterOp c =>
      exact absurd (hno _ (List.mem_cons_self _ _)) (by simp [isFailAfterOp])
    | setCbOp c =>
      show (run (set_alloc_failure_callback c s) rest).failed = true ↔
        0 < 0 + traceTriggers (set_alloc_failure_callback c s) rest
      rw [Nat.zero_add]
      exact ih _ htail hf
    | guardCtor =>
      show (run (guardConstruct s) rest).failed = true ↔
        0 < 0 + traceTriggers (guardConstruct s) rest
      rw [Nat.zero_add]
      exact ih _ htail hf
    | guardDtor =>
      show (run (guardDestruct s) rest).failed = true ↔
        0 < 0 + traceTriggers (guardDestruct s) rest
      rw [Nat.zero_add]
      exact ih _ htail hf

/-- With the schedule disarmed and `_alloc_count` kept below the
sentinel, no operation sequence without a `fail_after` ever invokes the
failure callback. -/
theorem disarmed_trace (ops : List Op) :
    ∀ s : Injector, (∀ op ∈ ops, isFailAfterOp op = false) → s.fail_at = U64MAX →
      s.alloc_count + allocPointCount ops ≤ U64MAX →
      traceTriggers s ops = 0 := by
  induction ops with
  | nil =>
    intro s _ _ _
    rfl
  | cons op rest ih =>
    intro s hno hfa hle
    have htail : ∀ o ∈ rest, isFailAfterOp o = false :=
      fun o ho => hno o (List.mem_cons_of_mem _ ho)
    cases op with
    | allocPoint =>
      have hcnt : allocPointCount (Op.allocPoint :: rest) = 1 + allocPointCount rest := rfl
      rw [hcnt] at hle
      show (on_alloc_point s).cbInvocations + traceTriggers (on_alloc_point s).st rest = 0
      by_cases h0 : s.suppressed = 0
      · have hstep : s.alloc_count < s.fail_at := by
          rw [hfa, U64MAX_eq] at *
          omega
        rw [step_no_trigger s h0 hstep]
        dsimp only
        rw [Nat.zero_add]
        refine ih _ htail hfa ?_
        show (s.alloc_count + 1) % U64LIM + allocPointCount rest ≤ U64MAX
        rw [Nat.mod_eq_of_lt (by rw [U64LIM_eq]; rw [U64MAX_eq] at hle; omega)]
        omega
      · rw [step_suppressed s h0]
        dsimp only
        rw [Nat.zero_add]
        exact ih s htail hfa (by omega)
    | cancelOp =>
      show 0 + traceTriggers (cancel s) rest = 0
      rw [Nat.zero_add]
      exact ih (cancel s) htail rfl hle
    | failAfterOp c =>
      exact absurd (hno _ (List.mem_cons_self _ _)) (by simp [isFailAfterOp])
    | setCbOp c =>
      show 0 + traceTriggers (set_alloc_failure_callback c s) rest = 0
      rw [Nat.zero_add]
      exact ih _ htail hfa hle
    | guardCtor =>
      show 0 + traceTriggers (guardConstruct s) rest = 0
      rw [Nat.zero_add]
      exact ih _ htail hfa hle
    | guardDtor =>
      show 0 + traceTriggers (guardDestruct s) rest = 0
      rw [Nat.zero_add]
      exact ih _ htail hfa hle

/-- Along any operation sequence without a `fail_after`, as long as
`_alloc_count` cannot climb to the `UINT64_MAX` sentinel, the failure
callback is invoked at most once: the triggering call itself disarms
the schedule. -/
theorem trace_at_most_one (ops : List Op) :
    ∀ s : Injector, (∀ op ∈ ops, isFailAfterOp op = false) →
      s.alloc_count + allocPointCount ops ≤ U64MAX →
      traceTriggers s ops ≤ 1 := by
  induction ops with
  | nil =>
    intro s _ _
    exact Nat.zero_le 1
  | cons op rest ih =>
    intro s hno hle
    have htail : ∀ o ∈ rest, isFailAfterOp o = false :=
      fun o ho => hno o (List.mem_cons_of_mem _ ho)
    cases op with
    | allocPoint =>
      have hcnt : allocPointCount (Op.allocPoint :: rest) = 1 + allocPointCount rest := rfl
      rw [hcnt] at hle
      show (on_alloc_point s).cbInvocations + traceTriggers (on_alloc_point s).st rest ≤ 1
      by_cases h0 : s.suppressed = 0
      · by_cases h1 : s.fail_at ≤ s.alloc_count
        · have ht := step_trigger s h0 h1
          have hz : traceTriggers (on_alloc_point s).st rest = 0 := by
            refine disarmed_trace rest _ htail ht.2.2.1 ?_
            have := ht.2.2.2.1
            omega
          rw [ht.1, hz]
        · rw [step_no_trigger s h0 (Nat.not_le.mp h1)]
          dsimp only
          rw [Nat.zero_add]
          refine ih _ htail ?_
          show (s.alloc_count + 1) % U64LIM + allocPointCount rest ≤ U64MAX
          rw [Nat.mod_eq_of_lt (by rw [U64LIM_eq]; rw [U64MAX_eq] at hle; omega)]
          omega
      · rw [step_suppressed s h0]
        dsimp only
        rw [Nat.zero_add]
        exact ih s htail (by omega)
    | cancelOp =>
      show 0 + traceTriggers (cancel s) rest ≤ 1
      rw [Nat.zero_add]
      exact ih (cancel s) htail hle
    | failAfterOp c =>
      exact absurd (hno _ (List.mem_cons_self _ _)) (by simp [isFailAfterOp])
    | setCbOp c =>
      show 0 + traceTriggers (set_alloc_failure_callback c s) rest ≤ 1
      rw [Nat.zero_add]
      exact ih _ htail hle
    | guardCtor =>
      show 0 + traceTriggers (guardConstruct s) rest ≤ 1
      rw [Nat.zero_add]
      exact ih _ htail hle
    | guardDtor =>
      show 0 + traceTriggers (guardDestruct s) rest ≤ 1
      rw [Nat.zero_add]
      exact ih _ htail hle

/-! ### Claims -/

/-- C4: for every injector state with `suppressed > 0`, an
`on_alloc_point()` invocation leaves every field of the injector
unchanged and does not invoke the failure callback, even if
`alloc_count >= fail_at`; since nothing changes, the armed schedule
resumes exactly where it left off once suppression returns to zero. -/
theorem C4_suppressed_is_identity (s : Injector) (h : s.suppressed ≠ 0) :
    on_alloc_point s = ⟨s, false, 0⟩ :=
  step_suppressed s h

/-- Witness for C4 at a suppressed state past its threshold. -/
theorem C4_witness :
    wit4.suppressed ≠ 0 ∧ on_alloc_point wit4 = ⟨wit4, false, 0⟩ :=
  ⟨by decide, C4_suppressed_is_identity wit4 (by decide)⟩

/-- C2 counterexample: with a callback that returns normally, this
`on_alloc_point` call triggers a failure (one callback invocation) yet
`alloc_count` afterwards is not its value before the call — the
triggering call is counted, refuting the claim as stated. -/
theorem C2_counterexample :
    (on_alloc_point cex2).cbInvocations = 1 ∧
    (on_alloc_point cex2).st.alloc_count ≠ cex2.alloc_count := by
  decide

/-- C2 (amended): whenever an `on_alloc_point()` invocation triggers a
failure and the installed callback raises (so the failure propagates,
as with the default `std::bad_alloc` callback), `alloc_count()`
afterwards equals its value just before that invocation: the
triggering call is not counted. -/
theorem C2_trigger_not_counted (s : Injector) (h0 : s.suppressed = 0)
    (h1 : s.fail_at ≤ s.alloc_count) (hc : s.cb = CbSpec.raises) :
    (on_alloc_point s).cbInvocations = 1 ∧
    (on_alloc_point s).st.alloc_count = s.alloc_count := by
  rw [step_trigger_raises s h0 h1 hc]
  exact ⟨rfl, rfl⟩

/-- Witness for C2 at a triggering state with the default callback. -/
theorem C2_witness :
    (wit2.suppressed = 0 ∧ wit2.fail_at ≤ wit2.alloc_count ∧ wit2.cb = CbSpec.raises) ∧
    (on_alloc_point wit2).cbInvocations = 1 ∧
    (on_alloc_point wit2).st.alloc_count = wit2.alloc_count :=
  ⟨⟨rfl, by decide, rfl⟩, C2_trigger_not_counted wit2 rfl (by decide) rfl⟩

/-- C3: after replacing the failure callback with a function that
returns normally, the scheduled `on_alloc_point()` call invokes that
callback exactly once, returns normally (no exception, so execution
continues), and `failed()` is true afterwards. -/
theorem C3_returning_callback (s : Injector) (h0 : s.suppressed = 0)
    (h1 : s.fail_at ≤ s.alloc_count) :
    (on_alloc_point (set_alloc_failure_callback CbSpec.returns s)).cbInvocations = 1 ∧
    (on_alloc_point (set_alloc_failure_callback CbSpec.returns s)).raised = false ∧
    (on_alloc_point (set_alloc_failure_callback CbSpec.returns s)).st.failed = true := by
  have h0a : (set_alloc_failure_callback CbSpec.returns s).suppressed = 0 := h0
  have h1a : (set_alloc_failure_callback CbSpec.returns s).fail_at ≤
    (set_alloc_failure_callback CbSpec.returns s).alloc_count := h1
  rw [step_trigger_returns _ h0a h1a rfl]
  exact ⟨rfl, rfl, rfl⟩

/-- Witness for C3 at a state past its threshold. -/
theorem C3_witness :
    (wit3.suppressed = 0 ∧ wit3.fail_at ≤ wit3.alloc_count) ∧
    (on_alloc_point (set_alloc_failure_callback CbSpec.returns wit3)).cbInvocations = 1 ∧
    (on_alloc_point (set_alloc_failure_callback CbSpec.returns wit3)).raised = false ∧
    (on_alloc_point (set_alloc_failure_callback CbSpec.returns wit3)).st.failed = true :=
  ⟨⟨rfl, by decide⟩, C3_returning_callback wit3 rfl (by decide)⟩

/-- C10: if the installed callback returns normally, the triggering
`on_alloc_point()` call still runs `++_alloc_count` after the callback
returns, so `alloc_count` advances on that call exactly as on a
non-triggering call (the `uint64_t` increment `(x + 1) mod 2 ^ 64`). -/
theorem C10_trigger_counted_on_return (s : Injector) (h0 : s.suppressed = 0)
    (h1 : s.fail_at ≤ s.alloc_count) (hc : s.cb = CbSpec.returns) :
    (on_alloc_point s).cbInvocations = 1 ∧
    (on_alloc_point s).raised = false ∧
    (on_alloc_point s).st.alloc_count = (s.alloc_count + 1) % U64LIM ∧
    (∀ t : Injector, t.suppressed = 0 → t.alloc_count < t.fail_at →
      (on_alloc_point t).st.alloc_count = (t.alloc_count + 1) % U64LIM) := by
  rw [step_trigger_returns s h0 h1 hc]
  refine ⟨rfl, rfl, rfl, ?_⟩
  intro t ht0 ht1
  rw [step_no_trigger t ht0 ht1]

/-- Witness for C10 at a triggering state with a returning callback. -/
theorem C10_witness :
    (wit10.suppressed = 0 ∧ wit10.fail_at ≤ wit10.alloc_count ∧ wit10.cb = CbSpec.returns) ∧
    (on_alloc_point wit10).cbInvocations = 1 ∧
    (on_alloc_point wit10).raised = false ∧
    (on_alloc_point wit10).st.alloc_count = (wit10.alloc_count + 1) % U64LIM ∧
    (∀ t : Injector, t.suppressed = 0 → t.alloc_count < t.fail_at →
      (on_alloc_point t).st.alloc_count = (t.alloc_count + 1) % U64LIM) :=
  ⟨⟨rfl, by decide, rfl⟩, C10_trigger_counted_on_return wit10 rfl (by decide) rfl⟩

/-- C9 counterexample: at `alloc_count = UINT64_MAX`, `fail_after(1)`
stores the wrapped `uint64_t` sum (`0`), not the arithmetic sum
`alloc_count + 1`, refuting the claim as stated. -/
theorem C9_counterexample :
    (fail_after 1 cex9).fail_at ≠ cex9.alloc_count + 1 := by
  decide

/-- C9 (amended): `fail_after(count)` sets `fail_at` to the `uint64_t`
sum `(alloc_count + count) mod 2 ^ 64` — equal to the arithmetic sum
whenever that sum fits in `uint64_t`, as hypothesised here — and resets
`failed` to false (so re-arming discards any previous schedule); no
other field changes. -/
theorem C9_fail_after_fields (s : Injector) (count : Nat)
    (h : s.alloc_count + count < U64LIM) :
    (fail_after count s).fail_at = s.alloc_count + count ∧
    (fail_after count s).failed = false ∧
    (fail_after count s).alloc_count = s.alloc_count ∧
    (fail_after count s).suppressed = s.suppressed ∧
    (fail_after count s).cb = s.cb :=
  ⟨Nat.mod_eq_of_lt h, rfl, rfl, rfl, rfl⟩

/-- Witness for C9 arming `fail_after(3)` at `alloc_count = 6`. -/
theorem C9_witness :
    wit9.alloc_count + 3 < U64LIM ∧
    (fail_after 3 wit9).fail_at = wit9.alloc_count + 3 ∧
    (fail_after 3 wit9).failed = false ∧
    (fail_after 3 wit9).alloc_count = wit9.alloc_count ∧
    (fail_after 3 wit9).suppressed = wit9.suppressed ∧
    (fail_after 3 wit9).cb = wit9.cb :=
  ⟨by decide, C9_fail_after_fields wit9 3 (by decide)⟩

/-- One call: the trigger count of a length-1 sequence. -/
theorem allocTriggers_one (s : Injector) :
    allocTriggers s 1 = (on_alloc_point s).cbInvocations := rfl

/-- One call: the state after a length-1 sequence. -/
theorem allocIter_one (s : Injector) :
    allocIter s 1 = (on_alloc_point s).st := rfl

/-- C5: suppression guards nest. From an active-injection state
(`suppressed = 0`), each guard construction raises `suppressed` by one
and each destruction lowers it by one; after constructing two guards,
destroying one leaves `suppressed` nonzero (injection still
suppressed), and destroying both returns the injector exactly to its
original state, restoring active injection. -/
theorem C5_guards_nest (s : Injector) (h : s.suppressed = 0) :
    (guardConstruct s).suppressed = s.suppressed + 1 ∧
    (guardConstruct (guardConstruct s)).suppressed = (guardConstruct s).suppressed + 1 ∧
    (guardDestruct (guardConstruct (guardConstruct s))).suppressed =
      (guardConstruct (guardConstruct s)).suppressed - 1 ∧
    (guardDestruct (guardConstruct (guardConstruct s))).suppressed ≠ 0 ∧
    guardDestruct (guardDestruct (guardConstruct (guardConstruct s))) = s := by
  obtain ⟨a, fa, fl, sp, cb⟩ := s
  dsimp only at h
  subst h
  simp [guardConstruct, guardDestruct, U64LIM_eq]

/-- Witness for C5 at an unsuppressed state. -/
theorem C5_witness :
    wit5.suppressed = 0 ∧
    ((guardConstruct wit5).suppressed = wit5.suppressed + 1 ∧
     (guardConstruct (guardConstruct wit5)).suppressed = (guardConstruct wit5).suppressed + 1 ∧
     (guardDestruct (guardConstruct (guardConstruct wit5))).suppressed =
       (guardConstruct (guardConstruct wit5)).suppressed - 1 ∧
     (guardDestruct (guardConstruct (guardConstruct wit5))).suppressed ≠ 0 ∧
     guardDestruct (guardDestruct (guardConstruct (guardConstruct wit5))) = wit5) :=
  ⟨rfl, C5_guards_nest wit5 rfl⟩

/-- C6: `failed()` is true iff a failure was triggered since the most
recent `fail_after`: `fail_after(k)` resets the flag to false for every
`k`, `cancel` never changes the flag, and along any operation sequence
after a `fail_after` with no further `fail_after` (`cancel`,
`alloc_count()` and `failed()` reads included — reads are pure), the
flag ends true exactly when some call invoked the failure callback. -/
theorem C6_failed_iff_triggered (s : Injector) (k : Nat) (ops : List Op)
    (hno : ∀ op ∈ ops, isFailAfterOp op = false) :
    (fail_after k s).failed = false ∧
    (cancel s).failed = s.failed ∧
    ((run (fail_after k s) ops).failed = true ↔ 0 < traceTriggers (fail_after k s) ops) :=
  ⟨rfl, rfl, failed_iff_triggered ops (fail_after k s) hno rfl⟩

/-- Witness for C6: arming `fail_after(1)` and then two calls and a
`cancel`; the second call triggers and the flag stays set. -/
theorem C6_witness :
    (∀ op ∈ [Op.allocPoint, Op.allocPoint, Op.cancelOp], isFailAfterOp op = false) ∧
    ((fail_after 1 wit6).failed = false ∧
     (cancel wit6).failed = wit6.failed ∧
     ((run (fail_after 1 wit6) [Op.allocPoint, Op.allocPoint, Op.cancelOp]).failed = true ↔
       0 < traceTriggers (fail_after 1 wit6) [Op.allocPoint, Op.allocPoint, Op.cancelOp])) :=
  ⟨by decide, C6_failed_iff_triggered wit6 1 [Op.allocPoint, Op.allocPoint, Op.cancelOp] (by decide)⟩

/-- C7 counterexample: from `alloc_count = 2 ^ 64 - 2`, `cancel()` sets
`_fail_at` to the `UINT64_MAX` sentinel, yet the second subsequent call
reaches `alloc_count = UINT64_MAX >= _fail_at` and triggers: the
callback is invoked and `failed` is set despite the preceding
`cancel()`, refuting the claim as stated. -/
theorem C7_counterexample :
    allocTriggers (cancel cex7) 2 = 1 ∧
    (allocIter (cancel cex7) 2).failed = true := by
  decide

/-- C7 (amended): after `cancel()`, a sequence of `n` `on_alloc_point`
invocations (no intervening `fail_after`) never triggers failure —
provided `_alloc_count` cannot climb to the `UINT64_MAX` sentinel
(`alloc_count + n <= 2 ^ 64 - 1`): the callback is never invoked and
`failed` keeps its prior value throughout. -/
theorem C7_cancel_never_triggers (s : Injector) (n : Nat)
    (hn : s.alloc_count + n ≤ U64MAX) :
    allocTriggers (cancel s) n = 0 ∧
    ∀ i, i ≤ n → (allocIter (cancel s) i).failed = s.failed := by
  refine ⟨(disarmed_iter n (cancel s) rfl hn).1, ?_⟩
  intro i hi
  exact (disarmed_iter i (cancel s) rfl (show s.alloc_count + i ≤ U64MAX by omega)).2.1

/-- Witness for C7: four calls after a `cancel` on an armed state. -/
theorem C7_witness :
    wit7.alloc_count + 4 ≤ U64MAX ∧
    (allocTriggers (cancel wit7) 4 = 0 ∧
     ∀ i, i ≤ 4 → (allocIter (cancel wit7) i).failed = wit7.failed) :=
  ⟨by decide, C7_cancel_never_triggers wit7 4 (by decide)⟩

/-- C8 counterexample: arming `fail_after(0)` at
`alloc_count = 2 ^ 64 - 2` with a normally-returning callback: the
first call triggers and (being counted) pushes `alloc_count` up to the
`UINT64_MAX` sentinel, so the second call compares
`alloc_count >= UINT64_MAX = _fail_at` and triggers again — two
callback invocations with no intervening `fail_after`, refuting the
claim as stated. -/
theorem C8_counterexample :
    ¬ traceTriggers (fail_after 0 cex8) [Op.allocPoint, Op.allocPoint] ≤ 1 := by
  decide

/-- C8 (amended): between a `fail_after` and the next `fail_after`, the
failure callback is invoked at most once — provided `_alloc_count`
cannot climb to the `UINT64_MAX` sentinel — because a triggering call
first sets `failed = true` and resets `_fail_at` to the disarmed
sentinel (as by `cancel()`) before invoking the callback, so the
disarming happens whether the callback throws or returns normally. -/
theorem C8_at_most_one_per_arming (s : Injector) (k : Nat) (ops : List Op)
    (hno : ∀ op ∈ ops, isFailAfterOp op = false)
    (hb : s.alloc_count + allocPointCount ops ≤ U64MAX) :
    traceTriggers (fail_after k s) ops ≤ 1 ∧
    (∀ t : Injector, t.suppressed = 0 → t.fail_at ≤ t.alloc_count →
      (on_alloc_point t).st.failed = true ∧ (on_alloc_point t).st.fail_at = U64MAX) := by
  refine ⟨trace_at_most_one ops (fail_after k s) hno hb, ?_⟩
  intro t h0 h1
  exact ⟨(step_trigger t h0 h1).2.1, (step_trigger t h0 h1).2.2.1⟩

/-- Witness for C8: `fail_after(1)` then three calls; the second
triggers, the third does not. -/
theorem C8_witness :
    (∀ op ∈ [Op.allocPoint, Op.allocPoint, Op.allocPoint], isFailAfterOp op = false) ∧
    wit8.alloc_count + allocPointCount [Op.allocPoint, Op.allocPoint, Op.allocPoint] ≤ U64MAX ∧
    (traceTriggers (fail_after 1 wit8) [Op.allocPoint, Op.allocPoint, Op.allocPoint] ≤ 1 ∧
     (∀ t : Injector, t.suppressed = 0 → t.fail_at ≤ t.alloc_count →
       (on_alloc_point t).st.failed = true ∧ (on_alloc_point t).st.fail_at = U64MAX)) :=
  ⟨by decide, by decide,
    C8_at_most_one_per_arming wit8 1 [Op.allocPoint, Op.allocPoint, Op.allocPoint]
      (by decide) (by decide)⟩

/-- C1 counterexample: at `alloc_count = UINT64_MAX` (suppression depth
zero), `fail_after(1)` wraps `_fail_at` to `0`, so already the first of
the `k = 1` calls that the claim promises to be failure-free invokes
the callback and sets `failed`, refuting the claim as stated. -/
theorem C1_counterexample :
    cex1.suppressed = 0 ∧
    allocTriggers (fail_after 1 cex1) 1 = 1 ∧
    (allocIter (fail_after 1 cex1) 1).failed = true := by
  decide

/-- C1 (amended): from any state with suppression depth zero and no
`uint64_t` overflow in the schedule (`alloc_count + k < 2 ^ 64`), after
`fail_after(k)` the first `k` `on_alloc_point()` calls trigger no
failure — the callback is never invoked and `failed()` stays false
throughout — and the `(k+1)`-th call triggers failure exactly once. -/
theorem C1_fail_after_exact (s : Injector) (k : Nat) (h0 : s.suppressed = 0)
    (hk : s.alloc_count + k < U64LIM) :
    allocTriggers (fail_after k s) k = 0 ∧
    (∀ i, i ≤ k → (allocIter (fail_after k s) i).failed = false) ∧
    allocTriggers (fail_after k s) (k + 1) = 1 ∧
    (allocIter (fail_after k s) (k + 1)).failed = true := by
  obtain ⟨a, fa, fl, sp, cb⟩ := s
  dsimp only at h0 hk
  subst h0
  have hmod : (a + k) % U64LIM = a + k := Nat.mod_eq_of_lt hk
  have hs0 : fail_after k ⟨a, fa, fl, 0, cb⟩ = ⟨a, a + k, false, 0, cb⟩ := by
    show (⟨a, (a + k) % U64LIM, false, 0, cb⟩ : Injector) = _
    rw [hmod]
  rw [hs0]
  have hcd := armed_countdown k ⟨a, a + k, false, 0, cb⟩ rfl (Nat.le_refl _) hk
  have ht := step_trigger ⟨a + k, a + k, false, 0, cb⟩ rfl (Nat.le_refl _)
  refine ⟨hcd.1, ?_, ?_, ?_⟩
  · intro i hi
    have hcdi := armed_countdown i ⟨a, a + k, false, 0, cb⟩ rfl
      (show a + i ≤ a + k by omega) (show a + i < U64LIM by omega)
    rw [hcdi.2]
  · rw [allocTriggers_add k 1, hcd.1, hcd.2, Nat.zero_add, allocTriggers_one]
    dsimp only
    exact ht.1
  · rw [allocIter_add k 1, hcd.2, allocIter_one]
    dsimp only
    exact ht.2.1

/-- Witness for C1: a fresh injector armed with `fail_after(2)`. -/
theorem C1_witness :
    wit1.suppressed = 0 ∧ wit1.alloc_count + 2 < U64LIM ∧
    (allocTriggers (fail_after 2 wit1) 2 = 0 ∧
     (∀ i, i ≤ 2 → (allocIter (fail_after 2 wit1) i).failed = false) ∧
     allocTriggers (fail_after 2 wit1) 3 = 1 ∧
     (allocIter (fail_after 2 wit1) 3).failed = true) :=
  ⟨rfl, by decide, C1_fail_after_exact wit1 2 rfl (by decide)⟩
